import Mathlib

/-
Verification of the HealthBox JSON database backend (src/database.py).

The development shallowly embeds `JSONDatabaseBackend` from database.py:
Python values that can live in the store are the JSON-like values `JVal`
(with `JVal.null` doubling as the Python value None), the object's mutable
attributes form `DBState`, the file system is a map from path to file
entry, and the methods `load` and `save` are state-passing functions that
also emit a trace of the externally visible actions (metadata
regeneration, encryption, file writes) and an optional raised exception.
Python's in-place mutation semantics are kept: an operation returns the
state as it stands when it returns OR raises, so partial mutation before
an exception is observable.

The crypto collaborator (crypto.py: HashBasedCryptoProvider,
HashBasedCryptoData, HashBasedCryptoDataFileInteropProvider) is not part
of src/; its behaviour is taken from the interface contract in the spec.
`save`/`load` are parameterised over a `Provider` record so that claims
about the store's own control flow hold for every provider, and the
concrete `specProvider` below models the contract itself.
-/

namespace HealthBox

/-- JSON-like values, the data the store can hold. `JVal.null` also models
the Python value None (json null and Python None are the same object-level
value, and `copy.deepcopy None = None`). -/
inductive JVal where
| null : JVal
| bool (b : Bool) : JVal
| num (n : Int) : JVal
| str (s : String) : JVal
| arr (elems : List JVal) : JVal
| obj (fields : List (String × JVal)) : JVal

/-- Python exceptions that the embedded code can raise. -/
inductive PyErr where
| exception (msg : String) : PyErr
| assertionError (msg : String) : PyErr
| invalidKeyError : PyErr
| decryptError : PyErr
| jsonError : PyErr
| fileNotFoundError : PyErr
| attributeError (msg : String) : PyErr
| keyError (k : String) : PyErr
deriving DecidableEq

/-- Modelled from the spec: crypto.py is not under src/. Per the glossary,
Crypto Metadata is an artifact that (a) verifies whether a candidate secret
matches the one it was made from and (b) derives the actual
encryption/decryption key. `keyHash` stands for the persisted verifier of
the secret the metadata was made from; `encSecret` stands for the secret
the derived encryption key is based on. -/
structure CryptoData where
  keyHash : String
  encSecret : String
deriving DecidableEq

/-- Modelled from the spec: a ciphertext remembers the key it was encrypted
under (abstractly, as the secret the key derives from) and the plaintext it
encrypts; decryption under a mismatched key fails with DecryptError. -/
structure Cipher where
  encKey : String
  payload : JVal

/-- A file-system entry: the data file holds either serialized plain text
(json.dump of the mapping) or ciphertext bytes, the crypto data file holds
the serialized Crypto Metadata, and a path may also name a non-file. -/
inductive Entry where
| fileText (v : JVal) : Entry
| fileCipher (c : Cipher) : Entry
| fileMeta (m : String) : Entry
| directory : Entry

/-- The file system: a map from path to entry. -/
def FS : Type := String → Option Entry

/-- Writing a file (any of the open modes "w", "w+", "wb", "wb+" truncates
or creates, so a write simply replaces the entry at the path). -/
def fsSet (fs : FS) (p : String) (e : Entry) : FS :=
  fun q => if q = p then some e else fs q

/-- The empty file system. -/
def fsEmpty : FS := fun _ => none

/-- Externally visible actions of a save, in the order they happen. -/
inductive Ev where
| regen : Ev
| encryptE : Ev
| writeData (mode : String) (content : Entry) : Ev
| writeMeta (mode : String) (content : Entry) : Ev

/-- The crypto collaborator's interface (spec section 6): verification of a
secret against metadata, metadata creation, encrypt/decrypt, and the
metadata file interchange format. All functions also receive the text
encoding, as in the source. -/
structure Provider where
  check : CryptoData → String → String → Except PyErr Unit
  makeNew : String → String → CryptoData
  encrypt : CryptoData → JVal → Cipher
  decrypt : CryptoData → Cipher → Except PyErr JVal
  loadMeta : String → String → String → Except PyErr CryptoData
  dumpMeta : CryptoData → String

/-- Modelled from the spec: the concrete crypto provider of crypto.py.
Verification succeeds exactly when the candidate secret matches the one the
metadata was made from, and fails with InvalidKey otherwise; make_new binds
both the verifier and the derivation secret to the given secret; decryption
requires the ciphertext's key to match the metadata's derivation secret and
fails with DecryptError otherwise (spec sections 6 and 8: loading with a
different secret fails with DecryptError); the metadata file stores the
persisted verifier, and loading it back combines the file's verifier with
the caller-supplied secret as the derivation secret. -/
def specProvider : Provider where
  check := fun cd key _ =>
    if cd.keyHash = key then Except.ok () else Except.error PyErr.invalidKeyError
  makeNew := fun key _ => { keyHash := key, encSecret := key }
  encrypt := fun cd v => { encKey := cd.encSecret, payload := v }
  decrypt := fun cd c =>
    if c.encKey = cd.encSecret then Except.ok c.payload else Except.error PyErr.decryptError
  loadMeta := fun payload key _ => Except.ok { keyHash := payload, encSecret := key }
  dumpMeta := fun cd => cd.keyHash

/-- The mutable attributes of a `JSONDatabaseBackend` object (database.py,
`__init__`). `_db = JVal.null` models `self._db = None`; `crypto_data =
none` models the attribute not having been assigned yet (reading it then
raises AttributeError). -/
structure DBState where
  db_file_name : String
  default : JVal
  loaded : Bool
  _db : JVal
  encryption : Bool
  crypto_data_file_name : String
  string_key : String
  encryption_text_encoding : String
  crypto_data : Option CryptoData

/-- The object state right after `__init__` (database.py lines 8-19). -/
def initState (db_file_name : String) (default : JVal) (encryption : Bool)
    (crypto_data_file_name : String) (string_key : String)
    (encryption_text_encoding : String) : DBState :=
  { db_file_name := db_file_name
  , default := default
  , loaded := false
  , _db := JVal.null
  , encryption := encryption
  , crypto_data_file_name := crypto_data_file_name
  , string_key := string_key
  , encryption_text_encoding := encryption_text_encoding
  , crypto_data := none }

/-- The result of running a method: the object state and file system as
they stand when the method returns or raises, the trace of visible
actions, and the exception raised (none = normal return). -/
structure OpResult where
  st : DBState
  fs : FS
  tr : List Ev
  err : Option PyErr

/-- The Python test `self._db is not None`, negated: only the value None
(here `JVal.null`) is identical to None. -/
def JVal.isNull : JVal → Bool
| JVal.null => true
| _ => false

/-- Whether an entry is a regular file (os.path.isfile). -/
def Entry.isFile : Entry → Bool
| Entry.directory => false
| _ => true

/-- Reading a file with json.load: succeeds on a text file holding a
serialized value, fails to parse anything else. -/
def jsonLoadE : Entry → Except PyErr JVal
| Entry.fileText v => Except.ok v
| _ => Except.error PyErr.jsonError

/-- Reading the crypto data file's serialized metadata payload; any other
kind of entry fails to parse. -/
def metaPayloadE : Entry → Except PyErr String
| Entry.fileMeta m => Except.ok m
| _ => Except.error PyErr.jsonError

/-- Reading the data file as bytes for decryption: a ciphertext file yields
its ciphertext; any other content is malformed input to decrypt. -/
def cipherContent : Entry → Option Cipher
| Entry.fileCipher c => some c
| _ => none

mutual

/-- copy.deepcopy on a JSON-like value: a structural copy. -/
def deepcopyVal : JVal → JVal
| JVal.null => JVal.null
| JVal.bool b => JVal.bool b
| JVal.num n => JVal.num n
| JVal.str s => JVal.str s
| JVal.arr xs => JVal.arr (deepcopyL xs)
| JVal.obj kvs => JVal.obj (deepcopyF kvs)

/-- copy.deepcopy, elementwise on a list. -/
def deepcopyL : List JVal → List JVal
| [] => []
| v :: vs => deepcopyVal v :: deepcopyL vs

/-- copy.deepcopy, elementwise on key-value fields. -/
def deepcopyF : List (String × JVal) → List (String × JVal)
| [] => []
| (k, v) :: kvs => (k, deepcopyVal v) :: deepcopyF kvs

end

/-- The key-rotation check of save (database.py lines 46-52): try
`self.crypto_data.check_string_key (self.string_key, ...)`; catching
InvalidKeyError means the key changed; any other exception propagates.
Reading the never-assigned attribute `crypto_data` raises AttributeError. -/
def keyChangedCheck (P : Provider) (st : DBState) : Except PyErr Bool :=
  match st.crypto_data with
  | none => Except.error (PyErr.attributeError "crypto_data")
  | some cd =>
    match P.check cd st.string_key st.encryption_text_encoding with
    | Except.ok _ => Except.ok false
    | Except.error PyErr.invalidKeyError => Except.ok true
    | Except.error e => Except.error e

/-- `JSONDatabaseBackend.save` (database.py lines 42-64). The assert on
`self._db is not None` comes first; with encryption on, the rotation check
runs unless `_new`, metadata is regenerated when `_new` or the key changed,
the plaintext is encrypted, the ciphertext is written to the data file and
the serialized metadata to the crypto data file; without encryption the
serialized mapping is written to the data file. The open mode is the
source's f-string: "w"/"wb" plus "+" when `_new`. -/
def save (P : Provider) (st : DBState) (fs : FS) (_new : Bool) : OpResult :=
  if JVal.isNull st._db then
    { st := st, fs := fs, tr := []
    , err := some (PyErr.assertionError "The database needs to be loaded first!") }
  else if st.encryption then
    match (if _new then Except.ok false else keyChangedCheck P st) with
    | Except.error e => { st := st, fs := fs, tr := [], err := some e }
    | Except.ok changed =>
      match (if _new || changed then
               some (P.makeNew st.string_key st.encryption_text_encoding)
             else st.crypto_data) with
      | none =>
        { st := st, fs := fs, tr := []
        , err := some (PyErr.attributeError "crypto_data") }
      | some cd =>
        let st1 := { st with crypto_data := some cd }
        let c := P.encrypt cd st._db
        let fs1 := fsSet fs st.db_file_name (Entry.fileCipher c)
        let fs2 := fsSet fs1 st.crypto_data_file_name (Entry.fileMeta (P.dumpMeta cd))
        { st := st1
        , fs := fs2
        , tr := (if _new || changed then [Ev.regen] else []) ++
            [ Ev.encryptE
            , Ev.writeData (String.append "wb" (if _new then "+" else "")) (Entry.fileCipher c)
            , Ev.writeMeta (String.append "w" (if _new then "+" else "")) (Entry.fileMeta (P.dumpMeta cd)) ]
        , err := none }
  else
    { st := st
    , fs := fsSet fs st.db_file_name (Entry.fileText st._db)
    , tr := [Ev.writeData (String.append "w" (if _new then "+" else "")) (Entry.fileText st._db)]
    , err := none }

/-- `JSONDatabaseBackend.load` (database.py lines 20-41). If the data file
does not exist: raise unless `create_if_nonexistent`, otherwise deep-copy
the default into `_db`, set `loaded`, and save on the new path. If it
exists: it must be a regular file; without encryption json.load it into
`_db`; with encryption, read the metadata file, decrypt the data file,
json-load the plaintext into `_db` and re-save; `loaded` is set at the end
of that branch, so an exception along the way leaves it untouched. -/
def load (P : Provider) (st : DBState) (fs : FS) (create_if_nonexistent : Bool) : OpResult :=
  match fs st.db_file_name with
  | none =>
    if create_if_nonexistent = false then
      { st := st, fs := fs, tr := []
      , err := some (PyErr.exception "Database file doesn't exist") }
    else
      let st1 := { st with _db := deepcopyVal st.default, loaded := true }
      save P st1 fs true
  | some ent =>
    if Entry.isFile ent = false then
      { st := st, fs := fs, tr := []
      , err := some (PyErr.exception "Database file isn't a file") }
    else if st.encryption = false then
      match jsonLoadE ent with
      | Except.error e => { st := st, fs := fs, tr := [], err := some e }
      | Except.ok v =>
        { st := { st with _db := v, loaded := true }, fs := fs, tr := [], err := none }
    else
      match fs st.crypto_data_file_name with
      | none => { st := st, fs := fs, tr := [], err := some PyErr.fileNotFoundError }
      | some ment =>
        match metaPayloadE ment with
        | Except.error e => { st := st, fs := fs, tr := [], err := some e }
        | Except.ok payload =>
          match P.loadMeta payload st.string_key st.encryption_text_encoding with
          | Except.error e => { st := st, fs := fs, tr := [], err := some e }
          | Except.ok cd =>
            let st1 := { st with crypto_data := some cd }
            match cipherContent ent with
            | none => { st := st1, fs := fs, tr := [], err := some PyErr.decryptError }
            | some c =>
              match P.decrypt cd c with
              | Except.error e => { st := st1, fs := fs, tr := [], err := some e }
              | Except.ok v =>
                let st2 := { st1 with _db := v }
                let r := save P st2 fs false
                match r.err with
                | some _ => r
                | none =>
                  { st := { r.st with loaded := true }, fs := r.fs, tr := r.tr, err := none }

/-! The mapping delegation surface (database.py lines 66-75). A standalone
Python dict is modelled as an insertion-ordered association list; the dict
operations below model the builtin dict methods that the store forwards
to. The store-level operations are the proxies installed by
`proxy_function_creator`: each forwards to the same-named method of
`self._db`, touching neither the file system nor the `loaded` flag; when
`_db` is None (or any other non-mapping value) attribute lookup on the
receiver fails with an AttributeError instead. -/

/-- A Python dict with string keys, as an insertion-ordered association
list with unique keys. -/
abbrev PyDict : Type := List (String × JVal)

/-- dict membership: `key in d`. -/
def dictContains (d : PyDict) (k : String) : Bool :=
  d.any (fun kv => kv.1 = k)

/-- dict lookup as an option (helper for the methods below). -/
def dictFind (d : PyDict) (k : String) : Option JVal :=
  (d.find? (fun kv => kv.1 = k)).map (fun kv => kv.2)

/-- `d[key]`: the value, or KeyError. -/
def dictGetItem (d : PyDict) (k : String) : Except PyErr JVal :=
  match dictFind d k with
  | some v => Except.ok v
  | none => Except.error (PyErr.keyError k)

/-- `d[key] = value`: overwrite in place keeping the key's position, or
append a new last entry. -/
def dictSetItem (d : PyDict) (k : String) (v : JVal) : PyDict :=
  if dictContains d k then
    d.map (fun kv => if kv.1 = k then (kv.1, v) else kv)
  else d ++ [(k, v)]

/-- `del d[key]`: remove the entry, or KeyError. -/
def dictDelItem (d : PyDict) (k : String) : Except PyErr PyDict :=
  if dictContains d k then
    Except.ok (d.filter (fun kv => kv.1 ≠ k))
  else Except.error (PyErr.keyError k)

/-- `d.clear ()`. -/
def dictClear (_d : PyDict) : PyDict := []

/-- `d.copy ()`: a shallow copy with the same entries. -/
def dictCopy (d : PyDict) : PyDict := d

/-- `d.fromkeys (keys, value)`: a new dict built from the keys in order,
each bound to the value (duplicates keep their first position). -/
def dictFromkeys (ks : List String) (v : JVal) : PyDict :=
  ks.foldl (fun acc k => dictSetItem acc k v) []

/-- `d.get (key, default)`. -/
def dictGet (d : PyDict) (k : String) (dflt : JVal) : JVal :=
  match dictFind d k with
  | some v => v
  | none => dflt

/-- `d.items ()` as a list of pairs in insertion order. -/
def dictItems (d : PyDict) : List (String × JVal) := d

/-- `d.keys ()` in insertion order. -/
def dictKeys (d : PyDict) : List String := d.map (fun kv => kv.1)

/-- `d.values ()` in insertion order. -/
def dictValues (d : PyDict) : List JVal := d.map (fun kv => kv.2)

/-- `d.pop (key)`: the removed value and the remaining dict, or KeyError. -/
def dictPop (d : PyDict) (k : String) : Except PyErr (JVal × PyDict) :=
  match dictFind d k with
  | some v => Except.ok (v, d.filter (fun kv => kv.1 ≠ k))
  | none => Except.error (PyErr.keyError k)

/-- `d.popitem ()`: the last inserted pair and the remaining dict, or
KeyError on an empty dict. -/
def dictPopitem (d : PyDict) : Except PyErr ((String × JVal) × PyDict) :=
  match d.getLast? with
  | some kv => Except.ok (kv, d.dropLast)
  | none => Except.error (PyErr.keyError "dictionary is empty")

/-- `d.setdefault (key, default)`: the present value, or the default after
inserting it. -/
def dictSetdefault (d : PyDict) (k : String) (v : JVal) : JVal × PyDict :=
  match dictFind d k with
  | some w => (w, d)
  | none => (v, d ++ [(k, v)])

/-- `d.update (other)`: set each of the other dict's entries in order. -/
def dictUpdate (d : PyDict) (other : PyDict) : PyDict :=
  other.foldl (fun acc kv => dictSetItem acc kv.1 kv.2) d

/-- The result of a proxied mapping operation: the object state and file
system as they stand afterwards, the trace of visible actions (always
empty: the proxies perform no disk I/O), and the returned value or raised
exception. -/
structure MapOpResult (α : Type) where
  st : DBState
  fs : FS
  tr : List Ev
  out : Except PyErr α

/-- Forwarding of a read-only dict method through `self._db` (the function
`proxy_function_creator` builds): the receiver must be a mapping, else the
attribute lookup fails. -/
def proxyRead {α : Type} (op : PyDict → α) (st : DBState) (fs : FS) : MapOpResult α :=
  match st._db with
  | JVal.obj d => { st := st, fs := fs, tr := [], out := Except.ok (op d) }
  | _ => { st := st, fs := fs, tr := [], out := Except.error (PyErr.attributeError "_db") }

/-- Forwarding of a dict method that may mutate the receiver in place and
return a value (or raise). -/
def proxyMut {α : Type} (op : PyDict → Except PyErr (α × PyDict)) (st : DBState) (fs : FS) :
    MapOpResult α :=
  match st._db with
  | JVal.obj d =>
    match op d with
    | Except.ok p =>
      { st := { st with _db := JVal.obj p.2 }, fs := fs, tr := [], out := Except.ok p.1 }
    | Except.error e => { st := st, fs := fs, tr := [], out := Except.error e }
  | _ => { st := st, fs := fs, tr := [], out := Except.error (PyErr.attributeError "_db") }

/-- `"key" in store` (proxied `__contains__`). -/
def store_contains (st : DBState) (fs : FS) (k : String) : MapOpResult Bool :=
  proxyRead (fun d => dictContains d k) st fs

/-- `store [key]` (proxied `__getitem__`). -/
def store_getitem (st : DBState) (fs : FS) (k : String) : MapOpResult JVal :=
  proxyMut (fun d => (dictGetItem d k).map (fun v => (v, d))) st fs

/-- `store [key] = value` (proxied `__setitem__`). -/
def store_setitem (st : DBState) (fs : FS) (k : String) (v : JVal) : MapOpResult Unit :=
  proxyMut (fun d => Except.ok ((), dictSetItem d k v)) st fs

/-- `del store [key]` (proxied `__delitem__`). -/
def store_delitem (st : DBState) (fs : FS) (k : String) : MapOpResult Unit :=
  proxyMut (fun d => (dictDelItem d k).map (fun d2 => ((), d2))) st fs

/-- `store.clear ()`. -/
def store_clear (st : DBState) (fs : FS) : MapOpResult Unit :=
  proxyMut (fun d => Except.ok ((), dictClear d)) st fs

/-- `store.copy ()`. -/
def store_copy (st : DBState) (fs : FS) : MapOpResult PyDict :=
  proxyRead dictCopy st fs

/-- `store.fromkeys (keys, value)`. -/
def store_fromkeys (st : DBState) (fs : FS) (ks : List String) (v : JVal) : MapOpResult PyDict :=
  proxyRead (fun _ => dictFromkeys ks v) st fs

/-- `store.get (key, default)`. -/
def store_get (st : DBState) (fs : FS) (k : String) (dflt : JVal) : MapOpResult JVal :=
  proxyRead (fun d => dictGet d k dflt) st fs

/-- `store.items ()`. -/
def store_items (st : DBState) (fs : FS) : MapOpResult (List (String × JVal)) :=
  proxyRead dictItems st fs

/-- `store.keys ()`. -/
def store_keys (st : DBState) (fs : FS) : MapOpResult (List String) :=
  proxyRead dictKeys st fs

/-- `store.pop (key)`. -/
def store_pop (st : DBState) (fs : FS) (k : String) : MapOpResult JVal :=
  proxyMut (fun d => dictPop d k) st fs

/-- `store.popitem ()`. -/
def store_popitem (st : DBState) (fs : FS) : MapOpResult (String × JVal) :=
  proxyMut dictPopitem st fs

/-- `store.setdefault (key, default)`. -/
def store_setdefault (st : DBState) (fs : FS) (k : String) (v : JVal) : MapOpResult JVal :=
  proxyMut (fun d => Except.ok (dictSetdefault d k v)) st fs

/-- `store.update (other)`. -/
def store_update (st : DBState) (fs : FS) (other : PyDict) : MapOpResult Unit :=
  proxyMut (fun d => Except.ok ((), dictUpdate d other)) st fs

/-- `store.values ()`. -/
def store_values (st : DBState) (fs : FS) : MapOpResult (List JVal) :=
  proxyRead dictValues st fs

/-! Object-graph model of `copy.deepcopy` (database.py line 24). The value
model above is pure, so it cannot distinguish `self._db = self.default`
from `self._db = copy.deepcopy (self.default)`. To state that the created
mapping shares no mutable substructure with the caller-supplied default
object, Python objects are modelled as nodes of a heap (a list indexed by
address); containers hold the addresses of their children. In a heap built
by ordinary construction every child's address is below its parent's, so a
read that only ever follows strictly smaller addresses (with a clamp
making it total) recovers the JSON value of an object. `copy.deepcopy`
appends a fresh copy of every reachable node, so all nodes of the copy sit
at or above the old heap's length; mutating any pre-existing address then
cannot change the value read from the copy. -/

/-- A heap node: an immutable scalar, a list of child addresses, or a dict
of child addresses. -/
inductive Node where
| leafN (v : JVal) : Node
| arrN (elems : List Nat) : Node
| objN (fields : List (String × Nat)) : Node

/-- The heap: node at address `i` is entry `i` of the list. -/
abbrev Heap : Type := List Node

/-- The node a dangling address resolves to under the read clamp. -/
def defaultNode : Node := Node.leafN JVal.null

/-- The node at an address (clamped to a null leaf when dangling). -/
def heapAt (h : Heap) (a : Nat) : Node := h.getD a defaultNode

/-- The child addresses a node holds. -/
def nodeKids : Node → List Nat
| Node.leafN _ => []
| Node.arrN es => es
| Node.objN fls => fls.map (fun kv => kv.2)

/-- Every node at address `L` or above has all of its children at address
`L` or above: the region from `L` up is closed, so it is unreachable from
below `L` and reads inside it never look below `L`. -/
def regionHigh (L : Nat) (h : Heap) : Prop :=
  ∀ i, L ≤ i → i < h.length → ∀ c ∈ nodeKids (heapAt h i), L ≤ c

/-- Reading the JSON value rooted at an address, following only strictly
smaller child addresses (the clamp keeps the read total; on a
well-constructed heap it never fires) with fuel bounding the depth. -/
def readH : Nat → Heap → Nat → JVal
| 0, _, _ => JVal.null
| fuel + 1, h, a =>
  match heapAt h a with
  | Node.leafN v => v
  | Node.arrN es =>
    JVal.arr (es.map (fun c => if c < a then readH fuel h c else JVal.null))
  | Node.objN fls =>
    JVal.obj (fls.map (fun kv => (kv.1, if kv.2 < a then readH fuel h kv.2 else JVal.null)))

/-- Deep copy of the children of an array node: copy each child in order
with the copier `f`, threading the growing heap, and return the copies'
addresses (a child address at or above the parent is dangling and copies
as a null leaf, in step with the read clamp). -/
def copyKidsA (f : Heap → Nat → Heap × Nat) (a : Nat) : Heap → List Nat → Heap × List Nat
| h, [] => (h, [])
| h, c :: cs =>
  let rc := if c < a then f h c else (h ++ [defaultNode], h.length)
  let rest := copyKidsA f a rc.1 cs
  (rest.1, rc.2 :: rest.2)

/-- Deep copy of the fields of a dict node, keeping the keys. -/
def copyKidsF (f : Heap → Nat → Heap × Nat) (a : Nat) :
    Heap → List (String × Nat) → Heap × List (String × Nat)
| h, [] => (h, [])
| h, (k, c) :: fls =>
  let rc := if c < a then f h c else (h ++ [defaultNode], h.length)
  let rest := copyKidsF f a rc.1 fls
  (rest.1, (k, rc.2) :: rest.2)

/-- One fuelled step of `copy.deepcopy` on the heap: copy the children,
then append the copied node; the result is the grown heap and the copy's
address. -/
def dcopyH : Nat → Heap → Nat → Heap × Nat
| 0, h, _ => (h ++ [defaultNode], h.length)
| fuel + 1, h, a =>
  match heapAt h a with
  | Node.leafN v => (h ++ [Node.leafN v], h.length)
  | Node.arrN es =>
    let r := copyKidsA (fun h2 c => dcopyH fuel h2 c) a h es
    (r.1 ++ [Node.arrN r.2], r.1.length)
  | Node.objN fls =>
    let r := copyKidsF (fun h2 c => dcopyH fuel h2 c) a h fls
    (r.1 ++ [Node.objN r.2], r.1.length)

/-- `copy.deepcopy` of the object at address `a` (fuel `a + 1` always
suffices, since reads and copies only descend to smaller addresses). -/
def heapDeepcopy (h : Heap) (a : Nat) : Heap × Nat := dcopyH (a + 1) h a

/-- The JSON value of the object at an address. -/
def heapRead (h : Heap) (a : Nat) : JVal := readH (a + 1) h a

/-- In-place mutation of the object at an address (for example
`default_obj ["x"] = 1` rebinding a field of the caller's default). -/
def heapMutate (h : Heap) (a : Nat) (n : Node) : Heap := h.set a n

/-- What a single deep copy guarantees: the heap grows by appending only,
the copy is the new top node, it sits at or above the old length, the high
region stays closed, and the copy reads back as the original (at every
fuel). -/
def CopySpec (L : Nat) (h : Heap) (a : Nat) (r : Heap × Nat) : Prop :=
  (∃ ext, r.1 = h ++ ext) ∧
  r.1.length = r.2 + 1 ∧
  h.length ≤ r.2 ∧
  regionHigh L r.1 ∧
  (∀ f2, readH f2 r.1 r.2 = readH f2 h a)

/-- What copying a list of children guarantees: appending only, the region
stays closed, all copies live in the new part, and the copies read back as
the (clamped) originals. -/
def KidsSpecA (L a : Nat) (h : Heap) (cs : List Nat) (r : Heap × List Nat) : Prop :=
  (∃ ext, r.1 = h ++ ext) ∧
  regionHigh L r.1 ∧
  (∀ x ∈ r.2, h.length ≤ x ∧ x < r.1.length) ∧
  (∀ f2, r.2.map (fun x => readH f2 r.1 x) =
    cs.map (fun c => if c < a then readH f2 h c else JVal.null))

/-- The field version of `KidsSpecA`, keys kept in place. -/
def KidsSpecF (L a : Nat) (h : Heap) (fls : List (String × Nat))
    (r : Heap × List (String × Nat)) : Prop :=
  (∃ ext, r.1 = h ++ ext) ∧
  regionHigh L r.1 ∧
  (∀ kv ∈ r.2, h.length ≤ kv.2 ∧ kv.2 < r.1.length) ∧
  (∀ f2, r.2.map (fun kv => (kv.1, readH f2 r.1 kv.2)) =
    fls.map (fun kv => (kv.1, if kv.2 < a then readH f2 h kv.2 else JVal.null)))

/-- A provider whose verification primitive fails with something other
than InvalidKey (for exercising the propagation arm of the rotation
check). -/
def otherFailProvider : Provider :=
  { specProvider with check := fun _ _ _ => Except.error (PyErr.exception "boom") }

/-- A concrete loaded encrypted store with matching metadata, for the
witnesses below. -/
def loadedEncState : DBState :=
  { initState "db.json" JVal.null true "db.cryptodata" "S" "utf-8" with
    _db := JVal.obj [], loaded := true
  , crypto_data := some { keyHash := "S", encSecret := "S" } }

/-- A concrete loaded plain store holding the mapping a: 1, for the C8
witness. -/
def loadedPlainState : DBState :=
  { initState "db.json" JVal.null false "c" "k" "utf-8" with
    _db := JVal.obj [("a", JVal.num 1)], loaded := true }

/-- The store configuration of the key-rotation scenario: encrypted, data
file db.json, metadata file db.cryptodata, secret as given. -/
def rotStoreState (S : String) : DBState :=
  initState "db.json" (JVal.obj []) true "db.cryptodata" S "utf-8"

/-- The on-disk state of an encrypted store previously saved under secret
`S` with mapping `d`. -/
def rotInitialFS (S : String) (d : PyDict) : FS :=
  fsSet (fsSet fsEmpty "db.json"
    (Entry.fileCipher { encKey := S, payload := JVal.obj d }))
    "db.cryptodata" (Entry.fileMeta S)

/-- The rotation scenario: load under `S`, rebind the secret attribute to
`S2` without reloading, save. -/
def rotAfterSave (S S2 : String) (d : PyDict) : OpResult :=
  let r1 := load specProvider (rotStoreState S) (rotInitialFS S d) true
  save specProvider { r1.st with string_key := S2 } r1.fs false

theorem fsSet_same (fs : FS) (p : String) (e : Entry) : fsSet fs p e p = some e := by
  unfold fsSet
  rw [if_pos rfl]

theorem fsSet_other (fs : FS) (p : String) (e : Entry) (q : String) (h : q ≠ p) :
    fsSet fs p e q = fs q := by
  unfold fsSet
  rw [if_neg h]

theorem heapAt_append (h ext : Heap) (a : Nat) (ha : a < h.length) :
    heapAt (h ++ ext) a = heapAt h a :=
  List.getD_append h ext defaultNode a ha

theorem heapAt_append_self (h : Heap) (n : Node) : heapAt (h ++ [n]) h.length = n := by
  simp [heapAt, List.getD_eq_getElem?_getD]

theorem heapAt_set_ne (h : Heap) (a0 a : Nat) (n : Node) (hne : a0 ≠ a) :
    heapAt (h.set a0 n) a = heapAt h a := by
  simp [heapAt, List.getD_eq_getElem?_getD, List.getElem?_set_ne hne]

theorem heapAt_of_ge (h : Heap) (a : Nat) (ha : h.length ≤ a) : heapAt h a = defaultNode := by
  simp [heapAt, List.getD_eq_getElem?_getD, List.getElem?_eq_none ha]

/-- A read below the old length is unaffected by appending nodes: it only
follows strictly smaller addresses. -/
theorem readH_append (ext : Heap) :
    ∀ fuel h a, a < List.length h → readH fuel (h ++ ext) a = readH fuel h a := by
  intro fuel
  induction fuel with
  | zero => intro h a _; rfl
  | succ fuel ih =>
    intro h a ha
    simp only [readH, heapAt_append h ext a ha]
    cases hn : heapAt h a with
    | leafN v => rfl
    | arrN es =>
      refine congrArg JVal.arr (List.map_congr_left ?_)
      intro c _
      by_cases hca : c < a
      · simp only [if_pos hca, ih h c (lt_trans hca ha)]
      · simp only [if_neg hca]
    | objN fls =>
      refine congrArg JVal.obj (List.map_congr_left ?_)
      intro kv _
      by_cases hca : kv.2 < a
      · simp only [if_pos hca, ih h kv.2 (lt_trans hca ha)]
      · simp only [if_neg hca]

/-- Any two fuels above the address read the same value: the read descends
to strictly smaller addresses at each step. -/
theorem readH_fuel (h : Heap) :
    ∀ f1 f2 a, a < f1 → a < f2 → readH f1 h a = readH f2 h a := by
  intro f1
  induction f1 with
  | zero => intro f2 a ha; omega
  | succ f1 ih =>
    intro f2 a _ ha2
    cases f2 with
    | zero => omega
    | succ f2 =>
      simp only [readH]
      cases hn : heapAt h a with
      | leafN v => rfl
      | arrN es =>
        refine congrArg JVal.arr (List.map_congr_left ?_)
        intro c _
        by_cases hca : c < a
        · simp only [if_pos hca, ih f2 c (by omega) (by omega)]
        · simp only [if_neg hca]
      | objN fls =>
        refine congrArg JVal.obj (List.map_congr_left ?_)
        intro kv _
        by_cases hca : kv.2 < a
        · simp only [if_pos hca, ih f2 kv.2 (by omega) (by omega)]
        · simp only [if_neg hca]

/-- A read rooted in a closed high region is unaffected by mutating any
node below the region: the read never looks below `L`. -/
theorem readH_set_low (L a0 : Nat) (n : Node) (h : Heap) (hreg : regionHigh L h)
    (ha0 : a0 < L) :
    ∀ fuel a, L ≤ a → readH fuel (h.set a0 n) a = readH fuel h a := by
  intro fuel
  induction fuel with
  | zero => intro a _; rfl
  | succ fuel ih =>
    intro a ha
    have hne : a0 ≠ a := by omega
    simp only [readH, heapAt_set_ne h a0 a n hne]
    cases hn : heapAt h a with
    | leafN v => rfl
    | arrN es =>
      refine congrArg JVal.arr (List.map_congr_left ?_)
      intro c hc
      by_cases hca : c < a
      · have hah : a < h.length := by
          by_contra hcon
          rw [heapAt_of_ge h a (by omega)] at hn
          exact Node.noConfusion hn
        have hcL : L ≤ c := by
          have := hreg a ha hah
          rw [hn] at this
          exact this c hc
        simp only [if_pos hca, ih c hcL]
      · simp only [if_neg hca]
    | objN fls =>
      refine congrArg JVal.obj (List.map_congr_left ?_)
      intro kv hkv
      by_cases hca : kv.2 < a
      · have hah : a < h.length := by
          by_contra hcon
          rw [heapAt_of_ge h a (by omega)] at hn
          exact Node.noConfusion hn
        have hcL : L ≤ kv.2 := by
          have := hreg a ha hah
          rw [hn] at this
          exact this kv.2 (by simp only [nodeKids]; exact List.mem_map_of_mem (fun p => p.2) hkv)
        simp only [if_pos hca, ih kv.2 hcL]
      · simp only [if_neg hca]

theorem regionHigh_append_one (L : Nat) (h : Heap) (n : Node) (hreg : regionHigh L h)
    (hn : ∀ c ∈ nodeKids n, L ≤ c) : regionHigh L (h ++ [n]) := by
  intro i hLi hi c hc
  rcases Nat.lt_or_ge i h.length with hlt | hge
  · rw [heapAt_append h [n] i hlt] at hc
    exact hreg i hLi hlt c hc
  · have hieq : i = h.length := by
      simp only [List.length_append, List.length_singleton] at hi
      omega
    subst hieq
    rw [heapAt_append_self h n] at hc
    exact hn c hc

/-- The region at or past the heap's end is trivially closed. -/
theorem regionHigh_length (h : Heap) : regionHigh h.length h := by
  intro i h1 h2
  omega

/-- The copy of a dangling child (the clamped branch of `copyKidsA`). -/
theorem dangling_copy_spec (L : Nat) (h : Heap) (hreg : regionHigh L h) :
    (∃ ext, h ++ [defaultNode] = h ++ ext) ∧
    (h ++ [defaultNode]).length = h.length + 1 ∧
    regionHigh L (h ++ [defaultNode]) ∧
    (∀ f2, readH f2 (h ++ [defaultNode]) h.length = JVal.null) := by
  refine ⟨⟨[defaultNode], rfl⟩, by simp, ?_, ?_⟩
  · exact regionHigh_append_one L h defaultNode hreg (by intro c hc; cases hc)
  · intro f2
    cases f2 with
    | zero => rfl
    | succ f2 => simp only [readH, heapAt_append_self]; rfl

/-- Copying a list of children with any copier that satisfies `CopySpec`
satisfies `KidsSpecA`. -/
theorem copyKidsA_spec (f : Heap → Nat → Heap × Nat) (L a : Nat)
    (hf : ∀ h2 c, c < a → regionHigh L h2 → L ≤ h2.length → CopySpec L h2 c (f h2 c)) :
    ∀ cs h2, regionHigh L h2 → a ≤ h2.length → L ≤ h2.length →
      KidsSpecA L a h2 cs (copyKidsA f a h2 cs) := by
  intro cs
  induction cs with
  | nil =>
    intro h2 hreg _ _
    unfold KidsSpecA copyKidsA
    refine ⟨⟨[], by simp⟩, hreg, ?_, ?_⟩
    · intro x hx
      simp at hx
    · intro f2
      rfl
  | cons c cs ih =>
    intro h2 hreg hah hLh
    by_cases hca : c < a
    · obtain ⟨⟨ext1, hext1⟩, hlen1, hge1, hreg1, hread1⟩ :=
        hf h2 c hca hreg hLh
      obtain ⟨⟨ext2, hext2⟩, hreg2, hmem2, hread2⟩ :=
        ih (f h2 c).1 hreg1 (by rw [hext1]; simp; omega) (by rw [hext1]; simp; omega)
      unfold KidsSpecA
      simp only [copyKidsA, if_pos hca]
      have h2len : h2.length ≤ (f h2 c).1.length := by rw [hext1]; simp
      have hstep : (f h2 c).1.length ≤ (copyKidsA f a (f h2 c).1 cs).1.length := by
        rw [hext2]; simp
      refine ⟨⟨ext1 ++ ext2, by rw [hext2, hext1, List.append_assoc]⟩, hreg2, ?_, ?_⟩
      · intro x hx
        rcases List.mem_cons.mp hx with rfl | hx
        · exact ⟨hge1, by omega⟩
        · have hm := hmem2 x hx
          exact ⟨by omega, hm.2⟩
      · intro f2
        simp only [List.map_cons]
        have hhead : readH f2 (copyKidsA f a (f h2 c).1 cs).1 (f h2 c).2 =
            readH f2 h2 c := by
          rw [hext2, readH_append ext2 f2 (f h2 c).1 (f h2 c).2 (by omega)]
          exact hread1 f2
        rw [hhead, if_pos hca, hread2 f2]
        refine congrArg (List.cons (readH f2 h2 c)) (List.map_congr_left ?_)
        intro c2 _
        by_cases hc2 : c2 < a
        · simp only [if_pos hc2]
          rw [hext1, readH_append ext1 f2 h2 c2 (by omega)]
        · simp only [if_neg hc2]
    · obtain ⟨_, hlen1, hreg1, hread1⟩ := dangling_copy_spec L h2 hreg
      obtain ⟨⟨ext2, hext2⟩, hreg2, hmem2, hread2⟩ :=
        ih (h2 ++ [defaultNode]) hreg1 (by simp; omega) (by simp; omega)
      unfold KidsSpecA
      simp only [copyKidsA, if_neg hca]
      have hstep : (h2 ++ [defaultNode]).length ≤
          (copyKidsA f a (h2 ++ [defaultNode]) cs).1.length := by
        rw [hext2]; simp
      simp only [List.length_append, List.length_singleton] at hstep
      refine ⟨⟨[defaultNode] ++ ext2, by rw [hext2, List.append_assoc]⟩, hreg2, ?_, ?_⟩
      · intro x hx
        rcases List.mem_cons.mp hx with rfl | hx
        · exact ⟨Nat.le_refl _, by omega⟩
        · have hm := hmem2 x hx
          simp only [List.length_append, List.length_singleton] at hm
          exact ⟨by omega, hm.2⟩
      · intro f2
        simp only [List.map_cons]
        have hhead : readH f2 (copyKidsA f a (h2 ++ [defaultNode]) cs).1 h2.length =
            JVal.null := by
          rw [hext2, readH_append ext2 f2 (h2 ++ [defaultNode]) h2.length (by simp)]
          exact hread1 f2
        rw [hhead, if_neg hca, hread2 f2]
        refine congrArg (List.cons JVal.null) (List.map_congr_left ?_)
        intro c2 _
        by_cases hc2 : c2 < a
        · simp only [if_pos hc2]
          rw [readH_append [defaultNode] f2 h2 c2 (by omega)]
        · simp only [if_neg hc2]

/-- Copying a list of fields with any copier that satisfies `CopySpec`
satisfies `KidsSpecF`. -/
theorem copyKidsF_spec (f : Heap → Nat → Heap × Nat) (L a : Nat)
    (hf : ∀ h2 c, c < a → regionHigh L h2 → L ≤ h2.length → CopySpec L h2 c (f h2 c)) :
    ∀ fls h2, regionHigh L h2 → a ≤ h2.length → L ≤ h2.length →
      KidsSpecF L a h2 fls (copyKidsF f a h2 fls) := by
  intro fls
  induction fls with
  | nil =>
    intro h2 hreg _ _
    unfold KidsSpecF copyKidsF
    refine ⟨⟨[], by simp⟩, hreg, ?_, ?_⟩
    · intro kv hkv
      simp at hkv
    · intro f2
      rfl
  | cons kc fls ih =>
    intro h2 hreg hah hLh
    obtain ⟨k, c⟩ := kc
    by_cases hca : c < a
    · obtain ⟨⟨ext1, hext1⟩, hlen1, hge1, hreg1, hread1⟩ :=
        hf h2 c hca hreg hLh
      obtain ⟨⟨ext2, hext2⟩, hreg2, hmem2, hread2⟩ :=
        ih (f h2 c).1 hreg1 (by rw [hext1]; simp; omega) (by rw [hext1]; simp; omega)
      unfold KidsSpecF
      simp only [copyKidsF, if_pos hca]
      have h2len : h2.length ≤ (f h2 c).1.length := by rw [hext1]; simp
      have hstep : (f h2 c).1.length ≤ (copyKidsF f a (f h2 c).1 fls).1.length := by
        rw [hext2]; simp
      refine ⟨⟨ext1 ++ ext2, by rw [hext2, hext1, List.append_assoc]⟩, hreg2, ?_, ?_⟩
      · intro kv hkv
        rcases List.mem_cons.mp hkv with rfl | hkv
        · exact ⟨hge1, by omega⟩
        · have hm := hmem2 kv hkv
          exact ⟨by omega, hm.2⟩
      · intro f2
        simp only [List.map_cons]
        have hhead : readH f2 (copyKidsF f a (f h2 c).1 fls).1 (f h2 c).2 =
            readH f2 h2 c := by
          rw [hext2, readH_append ext2 f2 (f h2 c).1 (f h2 c).2 (by omega)]
          exact hread1 f2
        rw [hhead, if_pos hca, hread2 f2]
        refine congrArg (List.cons (k, readH f2 h2 c)) (List.map_congr_left ?_)
        intro kv2 _
        by_cases hc2 : kv2.2 < a
        · simp only [if_pos hc2]
          rw [hext1, readH_append ext1 f2 h2 kv2.2 (by omega)]
        · simp only [if_neg hc2]
    · obtain ⟨_, hlen1, hreg1, hread1⟩ := dangling_copy_spec L h2 hreg
      obtain ⟨⟨ext2, hext2⟩, hreg2, hmem2, hread2⟩ :=
        ih (h2 ++ [defaultNode]) hreg1 (by simp; omega) (by simp; omega)
      unfold KidsSpecF
      simp only [copyKidsF, if_neg hca]
      have hstep : (h2 ++ [defaultNode]).length ≤
          (copyKidsF f a (h2 ++ [defaultNode]) fls).1.length := by
        rw [hext2]; simp
      simp only [List.length_append, List.length_singleton] at hstep
      refine ⟨⟨[defaultNode] ++ ext2, by rw [hext2, List.append_assoc]⟩, hreg2, ?_, ?_⟩
      · intro kv hkv
        rcases List.mem_cons.mp hkv with rfl | hkv
        · exact ⟨Nat.le_refl _, by omega⟩
        · have hm := hmem2 kv hkv
          simp only [List.length_append, List.length_singleton] at hm
          exact ⟨by omega, hm.2⟩
      · intro f2
        simp only [List.map_cons]
        have hhead : readH f2 (copyKidsF f a (h2 ++ [defaultNode]) fls).1 h2.length =
            JVal.null := by
          rw [hext2, readH_append ext2 f2 (h2 ++ [defaultNode]) h2.length (by simp)]
          exact hread1 f2
        rw [hhead, if_neg hca, hread2 f2]
        refine congrArg (List.cons (k, JVal.null)) (List.map_congr_left ?_)
        intro kv2 _
        by_cases hc2 : kv2.2 < a
        · simp only [if_pos hc2]
          rw [readH_append [defaultNode] f2 h2 kv2.2 (by omega)]
        · simp only [if_neg hc2]

/-- The deep copy of any object below a closed high region satisfies
`CopySpec` whenever the fuel exceeds the address. -/
theorem dcopyH_spec :
    ∀ fuel h L a, regionHigh L h → L ≤ h.length → a < L → a < fuel →
      CopySpec L h a (dcopyH fuel h a) := by
  intro fuel
  induction fuel with
  | zero =>
    intro h L a _ _ _ hfa
    omega
  | succ fuel ih =>
    intro h L a hreg hLh haL hfa
    unfold CopySpec
    cases hn : heapAt h a with
    | leafN v =>
      simp only [dcopyH, hn]
      refine ⟨⟨[Node.leafN v], rfl⟩, by simp, by simp, ?_, ?_⟩
      · exact regionHigh_append_one L h (Node.leafN v) hreg (by intro c hc; cases hc)
      · intro f2
        cases f2 with
        | zero => rfl
        | succ f2 => simp only [readH, heapAt_append_self, hn]
    | arrN es =>
      have hk := copyKidsA_spec (fun h2 c => dcopyH fuel h2 c) L a
        (fun h2 c hc hreg2 hL2 => ih h2 L c hreg2 hL2 (by omega) (by omega))
        es h hreg (by omega) hLh
      obtain ⟨⟨ext, hext⟩, hregk, hmemk, hreadk⟩ := hk
      simp only [dcopyH, hn]
      have hlenk : h.length ≤ (copyKidsA (fun h2 c => dcopyH fuel h2 c) a h es).1.length := by
        rw [hext]; simp
      refine ⟨⟨ext ++ [Node.arrN (copyKidsA (fun h2 c => dcopyH fuel h2 c) a h es).2],
          by rw [hext, List.append_assoc]⟩, by simp, hlenk, ?_, ?_⟩
      · refine regionHigh_append_one L _ _ hregk ?_
        intro c hc
        have hm := hmemk c hc
        omega
      · intro f2
        cases f2 with
        | zero => rfl
        | succ f2 =>
          simp only [readH, heapAt_append_self, hn]
          refine congrArg JVal.arr ?_
          have hmap : (copyKidsA (fun h2 c => dcopyH fuel h2 c) a h es).2.map
              (fun x => if x < (copyKidsA (fun h2 c => dcopyH fuel h2 c) a h es).1.length
                then readH f2 ((copyKidsA (fun h2 c => dcopyH fuel h2 c) a h es).1 ++
                  [Node.arrN (copyKidsA (fun h2 c => dcopyH fuel h2 c) a h es).2]) x
                else JVal.null) =
              (copyKidsA (fun h2 c => dcopyH fuel h2 c) a h es).2.map
              (fun x => readH f2 (copyKidsA (fun h2 c => dcopyH fuel h2 c) a h es).1 x) := by
            apply List.map_congr_left
            intro x hx
            have hm := hmemk x hx
            rw [if_pos hm.2, readH_append _ f2 _ x hm.2]
          rw [hmap, hreadk f2]
    | objN fls =>
      have hk := copyKidsF_spec (fun h2 c => dcopyH fuel h2 c) L a
        (fun h2 c hc hreg2 hL2 => ih h2 L c hreg2 hL2 (by omega) (by omega))
        fls h hreg (by omega) hLh
      obtain ⟨⟨ext, hext⟩, hregk, hmemk, hreadk⟩ := hk
      simp only [dcopyH, hn]
      have hlenk : h.length ≤ (copyKidsF (fun h2 c => dcopyH fuel h2 c) a h fls).1.length := by
        rw [hext]; simp
      refine ⟨⟨ext ++ [Node.objN (copyKidsF (fun h2 c => dcopyH fuel h2 c) a h fls).2],
          by rw [hext, List.append_assoc]⟩, by simp, hlenk, ?_, ?_⟩
      · refine regionHigh_append_one L _ _ hregk ?_
        intro c hc
        simp only [nodeKids] at hc
        obtain ⟨kv, hkv, rfl⟩ := List.mem_map.mp hc
        have hm := hmemk kv hkv
        omega
      · intro f2
        cases f2 with
        | zero => rfl
        | succ f2 =>
          simp only [readH, heapAt_append_self, hn]
          refine congrArg JVal.obj ?_
          have hmap : (copyKidsF (fun h2 c => dcopyH fuel h2 c) a h fls).2.map
              (fun kv => (kv.1,
                if kv.2 < (copyKidsF (fun h2 c => dcopyH fuel h2 c) a h fls).1.length
                then readH f2 ((copyKidsF (fun h2 c => dcopyH fuel h2 c) a h fls).1 ++
                  [Node.objN (copyKidsF (fun h2 c => dcopyH fuel h2 c) a h fls).2]) kv.2
                else JVal.null)) =
              (copyKidsF (fun h2 c => dcopyH fuel h2 c) a h fls).2.map
              (fun kv => (kv.1,
                readH f2 (copyKidsF (fun h2 c => dcopyH fuel h2 c) a h fls).1 kv.2)) := by
            apply List.map_congr_left
            intro kv hkv
            have hm := hmemk kv hkv
            rw [if_pos hm.2, readH_append _ f2 _ kv.2 hm.2]
          rw [hmap, hreadk f2]

/-- The copy reads back as the original object. -/
theorem heapDeepcopy_reads (h : Heap) (a : Nat) (ha : a < h.length) :
    heapRead (heapDeepcopy h a).1 (heapDeepcopy h a).2 = heapRead h a := by
  obtain ⟨⟨ext, hext⟩, hlen, hge, hreg, hread⟩ :=
    dcopyH_spec (a + 1) h h.length a (regionHigh_length h) (Nat.le_refl _) ha (by omega)
  unfold heapRead heapDeepcopy
  rw [hread ((dcopyH (a + 1) h a).2 + 1)]
  exact readH_fuel h ((dcopyH (a + 1) h a).2 + 1) (a + 1) a (by omega) (by omega)

/-- Mutating any object that existed before the copy (the caller-supplied
default object or anything it reaches) does not change the value the copy
reads back: the copy shares no mutable substructure with it. -/
theorem heapDeepcopy_mutation (h : Heap) (a : Nat) (ha : a < h.length) (a0 : Nat)
    (ha0 : a0 < h.length) (n : Node) :
    heapRead (heapMutate (heapDeepcopy h a).1 a0 n) (heapDeepcopy h a).2 =
      heapRead (heapDeepcopy h a).1 (heapDeepcopy h a).2 := by
  obtain ⟨⟨ext, hext⟩, hlen, hge, hreg, hread⟩ :=
    dcopyH_spec (a + 1) h h.length a (regionHigh_length h) (Nat.le_refl _) ha (by omega)
  unfold heapRead heapMutate heapDeepcopy
  exact readH_set_low h.length a0 n (dcopyH (a + 1) h a).1 hreg ha0
    ((dcopyH (a + 1) h a).2 + 1) (dcopyH (a + 1) h a).2 (by omega)

/-! The claims. -/

/-- C5: for every store whose data file does not exist, `load` with
create_if_nonexistent = false raises the NotFound error ("Database file
doesn't exist"), performs no disk writes (empty trace, file system
unchanged), and leaves the store's state unchanged. -/
theorem c5_creation_refusal (P : Provider) (st : DBState) (fs : FS)
    (hmiss : fs st.db_file_name = none) :
    load P st fs false =
      { st := st, fs := fs, tr := []
      , err := some (PyErr.exception "Database file doesn't exist") } := by
  unfold load
  rw [hmiss]
  rfl

/-- C5, witnessed at a concrete store over the empty file system. -/
theorem c5_creation_refusal_witness :
    fsEmpty (initState "db.json" (JVal.obj []) false "c" "k" "utf-8").db_file_name = none ∧
    load specProvider (initState "db.json" (JVal.obj []) false "c" "k" "utf-8") fsEmpty false =
      { st := initState "db.json" (JVal.obj []) false "c" "k" "utf-8", fs := fsEmpty, tr := []
      , err := some (PyErr.exception "Database file doesn't exist") } :=
  ⟨rfl, c5_creation_refusal specProvider
    (initState "db.json" (JVal.obj []) false "c" "k" "utf-8") fsEmpty rfl⟩

/-- C10: for every store constructed with default = None, `load` with
create_if_nonexistent = true on a missing data file raises the "The
database needs to be loaded first!" assertion out of the internal save
call (save tests `self._db is not None`, and `copy.deepcopy None` is
None), and leaves the store with loaded = true but no mapping, so the
load does not complete normally. -/
theorem c10_default_none_create (P : Provider) (dbn cdn key enc : String) (encr : Bool)
    (fs : FS) (hmiss : fs dbn = none) :
    load P (initState dbn JVal.null encr cdn key enc) fs true =
      { st := { initState dbn JVal.null encr cdn key enc with
          _db := JVal.null, loaded := true }
      , fs := fs, tr := []
      , err := some (PyErr.assertionError "The database needs to be loaded first!") } := by
  unfold load
  rw [show (initState dbn JVal.null encr cdn key enc).db_file_name = dbn from rfl, hmiss]
  rfl

/-- C10, witnessed at a concrete store over the empty file system. -/
theorem c10_default_none_create_witness :
    fsEmpty "db.json" = none ∧
    load specProvider (initState "db.json" JVal.null false "c" "k" "utf-8") fsEmpty true =
      { st := { initState "db.json" JVal.null false "c" "k" "utf-8" with
          _db := JVal.null, loaded := true }
      , fs := fsEmpty, tr := []
      , err := some (PyErr.assertionError "The database needs to be loaded first!") } :=
  ⟨rfl, c10_default_none_create specProvider "db.json" "c" "k" "utf-8" false fsEmpty rfl⟩

theorem isNull_iff (v : JVal) : JVal.isNull v = true ↔ v = JVal.null := by
  cases v <;> simp [JVal.isNull]

/-- C6 counterexample: a reachable store (created with default None, then
loaded from a nonexistent path) has loaded = true, and yet a save on it
fails with the NotLoaded error — so "save fails with a NotLoaded state
error if and only if loaded == false" is false on the code: the guard
tests the mapping, not the flag. -/
theorem c6_loaded_iff_counterexample :
    (load specProvider (initState "db.json" JVal.null false "c" "k" "utf-8")
      fsEmpty true).st.loaded = true ∧
    (save specProvider
      (load specProvider (initState "db.json" JVal.null false "c" "k" "utf-8")
        fsEmpty true).st
      (load specProvider (initState "db.json" JVal.null false "c" "k" "utf-8")
        fsEmpty true).fs false).err =
      some (PyErr.assertionError "The database needs to be loaded first!") :=
  ⟨rfl, rfl⟩

/-- C6 amended: save fails with the NotLoaded error ("The database needs
to be loaded first!") if and only if the in-memory mapping is absent
(`self._db is None`), and when it fails for that reason it performs no
disk writes and leaves all state unchanged. (The original claim keyed the
failure to `loaded == false`; the code tests `_db is not None`, and the
two disagree on reachable states, see the counterexample.) -/
theorem c6_save_guard (st : DBState) (fs : FS) (_new : Bool) :
    ((save specProvider st fs _new).err =
        some (PyErr.assertionError "The database needs to be loaded first!") ↔
      st._db = JVal.null) ∧
    (st._db = JVal.null →
      save specProvider st fs _new =
        { st := st, fs := fs, tr := []
        , err := some (PyErr.assertionError "The database needs to be loaded first!") }) := by
  have hnull : st._db = JVal.null →
      save specProvider st fs _new =
        { st := st, fs := fs, tr := []
        , err := some (PyErr.assertionError "The database needs to be loaded first!") } := by
    intro h
    unfold save
    rw [h]
    rfl
  refine ⟨⟨?_, fun h => by rw [hnull h]⟩, hnull⟩
  intro herr
  by_contra hne
  have hn : JVal.isNull st._db = false := by
    cases h : JVal.isNull st._db
    · rfl
    · exact absurd ((isNull_iff st._db).mp h) hne
  have : (save specProvider st fs _new).err = none ∨
      (save specProvider st fs _new).err = some (PyErr.attributeError "crypto_data") := by
    unfold save keyChangedCheck specProvider
    rw [hn]
    by_cases he : st.encryption = true
    · rw [if_neg (by simp), if_pos he]
      cases hnew : _new
      · cases hcd : st.crypto_data with
        | none => simp
        | some cd =>
          by_cases hk : cd.keyHash = st.string_key
          · simp [hk, hcd]
          · simp [hk, hcd]
      · simp
    · rw [if_neg (by simp), if_neg he]
      simp
  rcases this with h | h <;> rw [herr] at h <;> simp at h

/-- C6, witnessed at a concrete unloaded store. -/
theorem c6_save_guard_witness :
    ((save specProvider (initState "db.json" JVal.null false "c" "k" "utf-8") fsEmpty false).err =
        some (PyErr.assertionError "The database needs to be loaded first!") ↔
      (initState "db.json" JVal.null false "c" "k" "utf-8")._db = JVal.null) ∧
    ((initState "db.json" JVal.null false "c" "k" "utf-8")._db = JVal.null →
      save specProvider (initState "db.json" JVal.null false "c" "k" "utf-8") fsEmpty false =
        { st := initState "db.json" JVal.null false "c" "k" "utf-8", fs := fsEmpty, tr := []
        , err := some (PyErr.assertionError "The database needs to be loaded first!") }) :=
  c6_save_guard (initState "db.json" JVal.null false "c" "k" "utf-8") fsEmpty false

/-- C9: in a loaded, non-encrypted store the content written by save is
the same whether the `_new` flag is true or false — the flag only changes
the open mode ("w+" against "w"), never the written content, the
resulting file system, or the resulting object state. -/
theorem c9_new_flag_only_mode (st : DBState) (fs : FS) (d : PyDict)
    (_hl : st.loaded = true) (he : st.encryption = false) (hdb : st._db = JVal.obj d) :
    (save specProvider st fs true).fs = (save specProvider st fs false).fs ∧
    (save specProvider st fs true).st = (save specProvider st fs false).st ∧
    (save specProvider st fs true).err = none ∧
    (save specProvider st fs false).err = none ∧
    (save specProvider st fs true).tr = [Ev.writeData "w+" (Entry.fileText st._db)] ∧
    (save specProvider st fs false).tr = [Ev.writeData "w" (Entry.fileText st._db)] := by
  have hn : JVal.isNull st._db = false := by rw [hdb]; rfl
  unfold save
  rw [hn, he]
  exact ⟨rfl, rfl, rfl, rfl, rfl, rfl⟩

/-- C9, witnessed at a concrete loaded plain store. -/
theorem c9_new_flag_only_mode_witness :
    (save specProvider
      { initState "db.json" JVal.null false "c" "k" "utf-8" with
        _db := JVal.obj [("a", JVal.num 1)], loaded := true } fsEmpty true).tr =
      [Ev.writeData "w+" (Entry.fileText (JVal.obj [("a", JVal.num 1)]))] ∧
    (save specProvider
      { initState "db.json" JVal.null false "c" "k" "utf-8" with
        _db := JVal.obj [("a", JVal.num 1)], loaded := true } fsEmpty false).tr =
      [Ev.writeData "w" (Entry.fileText (JVal.obj [("a", JVal.num 1)]))] := by
  have h := c9_new_flag_only_mode
    { initState "db.json" JVal.null false "c" "k" "utf-8" with
      _db := JVal.obj [("a", JVal.num 1)], loaded := true } fsEmpty
    [("a", JVal.num 1)] rfl rfl rfl
  exact ⟨h.2.2.2.2.1, h.2.2.2.2.2⟩

/-- C7: in a non-encrypted store, saving a mapping and then loading again
yields the same mapping (save followed by load is the identity on the
in-memory mapping). -/
theorem c7_plain_round_trip (st : DBState) (fs : FS) (d : PyDict)
    (he : st.encryption = false) (hdb : st._db = JVal.obj d) :
    (save specProvider st fs false).err = none ∧
    (load specProvider (save specProvider st fs false).st
      (save specProvider st fs false).fs true).err = none ∧
    (load specProvider (save specProvider st fs false).st
      (save specProvider st fs false).fs true).st._db = JVal.obj d := by
  have hn : JVal.isNull st._db = false := by rw [hdb]; rfl
  have hsave : save specProvider st fs false =
      { st := st, fs := fsSet fs st.db_file_name (Entry.fileText st._db)
      , tr := [Ev.writeData "w" (Entry.fileText st._db)], err := none } := by
    unfold save
    rw [hn, he]
    rfl
  have hget : fsSet fs st.db_file_name (Entry.fileText st._db) st.db_file_name =
      some (Entry.fileText st._db) := by
    unfold fsSet
    rw [if_pos rfl]
  have hload : load specProvider st (fsSet fs st.db_file_name (Entry.fileText st._db)) true =
      { st := { st with _db := JVal.obj d, loaded := true }
      , fs := fsSet fs st.db_file_name (Entry.fileText st._db), tr := [], err := none } := by
    unfold load
    rw [hget]
    simp [Entry.isFile, he, jsonLoadE, hdb]
  rw [hsave]
  refine ⟨rfl, ?_, ?_⟩
  · show (load specProvider st (fsSet fs st.db_file_name (Entry.fileText st._db)) true).err = none
    rw [hload]
  · show (load specProvider st
      (fsSet fs st.db_file_name (Entry.fileText st._db)) true).st._db = JVal.obj d
    rw [hload]

/-- C7, witnessed at a concrete loaded plain store. -/
theorem c7_plain_round_trip_witness :
    (save specProvider
      { initState "db.json" JVal.null false "c" "k" "utf-8" with
        _db := JVal.obj [("a", JVal.num 1)], loaded := true } fsEmpty false).err = none ∧
    (load specProvider
      (save specProvider
        { initState "db.json" JVal.null false "c" "k" "utf-8" with
          _db := JVal.obj [("a", JVal.num 1)], loaded := true } fsEmpty false).st
      (save specProvider
        { initState "db.json" JVal.null false "c" "k" "utf-8" with
          _db := JVal.obj [("a", JVal.num 1)], loaded := true } fsEmpty false).fs true).err = none ∧
    (load specProvider
      (save specProvider
        { initState "db.json" JVal.null false "c" "k" "utf-8" with
          _db := JVal.obj [("a", JVal.num 1)], loaded := true } fsEmpty false).st
      (save specProvider
        { initState "db.json" JVal.null false "c" "k" "utf-8" with
          _db := JVal.obj [("a", JVal.num 1)], loaded := true } fsEmpty false).fs true).st._db =
      JVal.obj [("a", JVal.num 1)] :=
  c7_plain_round_trip
    { initState "db.json" JVal.null false "c" "k" "utf-8" with
      _db := JVal.obj [("a", JVal.num 1)], loaded := true } fsEmpty
    [("a", JVal.num 1)] rfl rfl

/-- C1: the key-rotation check of a non-new encrypted save. If the
provider's verification of the current secret against the in-memory
Crypto Metadata succeeds, the metadata is kept as it is (no regeneration,
no regen event); if it fails with the InvalidKey signal, the metadata is
regenerated from the current secret before encryption (the regen event
precedes the encrypt event); any other failure of the verification
primitive propagates to the caller unmodified, with nothing written and
nothing mutated. -/
theorem c1_rotation_check (P : Provider) (st : DBState) (fs : FS) (cd : CryptoData)
    (he : st.encryption = true) (hdb : JVal.isNull st._db = false)
    (hcd : st.crypto_data = some cd) :
    (P.check cd st.string_key st.encryption_text_encoding = Except.ok () →
      (save P st fs false).err = none ∧
      (save P st fs false).st.crypto_data = some cd ∧
      Ev.regen ∉ (save P st fs false).tr) ∧
    (P.check cd st.string_key st.encryption_text_encoding = Except.error PyErr.invalidKeyError →
      (save P st fs false).err = none ∧
      (save P st fs false).st.crypto_data =
        some (P.makeNew st.string_key st.encryption_text_encoding) ∧
      (∃ rest, (save P st fs false).tr = Ev.regen :: Ev.encryptE :: rest)) ∧
    (∀ e, P.check cd st.string_key st.encryption_text_encoding = Except.error e →
      e ≠ PyErr.invalidKeyError →
      save P st fs false = { st := st, fs := fs, tr := [], err := some e }) := by
  refine ⟨?_, ?_, ?_⟩
  · intro hchk
    have hkc : keyChangedCheck P st = Except.ok false := by
      simp only [keyChangedCheck, hcd, hchk]
    unfold save
    simp [hdb, he, hkc, hcd]
  · intro hchk
    have hkc : keyChangedCheck P st = Except.ok true := by
      simp only [keyChangedCheck, hcd, hchk]
    unfold save
    simp [hdb, he, hkc]
  · intro e hchk hne
    have hkc : keyChangedCheck P st = Except.error e := by
      cases e with
      | invalidKeyError => exact absurd rfl hne
      | _ => simp only [keyChangedCheck, hcd, hchk]
    unfold save
    simp [hdb, he, hkc]

/-- C1, witnessed: the succeed arm and the InvalidKey arm at the spec
provider (matching and changed secret), and the propagation arm at a
provider whose check raises a different exception. -/
theorem c1_rotation_check_witness :
    ((save specProvider
      { initState "db.json" JVal.null true "db.cryptodata" "S" "utf-8" with
        _db := JVal.obj [], loaded := true
      , crypto_data := some { keyHash := "S", encSecret := "S" } } fsEmpty false).st.crypto_data =
      some { keyHash := "S", encSecret := "S" }) ∧
    ((save specProvider
      { initState "db.json" JVal.null true "db.cryptodata" "T" "utf-8" with
        _db := JVal.obj [], loaded := true
      , crypto_data := some { keyHash := "S", encSecret := "S" } } fsEmpty false).st.crypto_data =
      some { keyHash := "T", encSecret := "T" }) ∧
    (save otherFailProvider
      { initState "db.json" JVal.null true "db.cryptodata" "S" "utf-8" with
        _db := JVal.obj [], loaded := true
      , crypto_data := some { keyHash := "S", encSecret := "S" } } fsEmpty false =
      { st := { initState "db.json" JVal.null true "db.cryptodata" "S" "utf-8" with
          _db := JVal.obj [], loaded := true
        , crypto_data := some { keyHash := "S", encSecret := "S" } }
      , fs := fsEmpty, tr := [], err := some (PyErr.exception "boom") }) := by
  refine ⟨?_, ?_, ?_⟩
  · exact ((c1_rotation_check specProvider
      { initState "db.json" JVal.null true "db.cryptodata" "S" "utf-8" with
        _db := JVal.obj [], loaded := true
      , crypto_data := some { keyHash := "S", encSecret := "S" } } fsEmpty
      { keyHash := "S", encSecret := "S" } rfl rfl rfl).1 rfl).2.1
  · exact ((c1_rotation_check specProvider
      { initState "db.json" JVal.null true "db.cryptodata" "T" "utf-8" with
        _db := JVal.obj [], loaded := true
      , crypto_data := some { keyHash := "S", encSecret := "S" } } fsEmpty
      { keyHash := "S", encSecret := "S" } rfl rfl rfl).2.1 rfl).2.1
  · exact (c1_rotation_check otherFailProvider
      { initState "db.json" JVal.null true "db.cryptodata" "S" "utf-8" with
        _db := JVal.obj [], loaded := true
      , crypto_data := some { keyHash := "S", encSecret := "S" } } fsEmpty
      { keyHash := "S", encSecret := "S" } rfl rfl rfl).2.2
      (PyErr.exception "boom") rfl (by simp)

/-- C3: in every successful encrypted save the trace is a regeneration
(exactly when `_new` is set or the key-rotation check reported a changed
secret), then the encryption of the plaintext, then the write of the
ciphertext to the data file, then — last — the write of the serialized
Crypto Metadata to the metadata file. -/
theorem c3_save_ordering (P : Provider) (st : DBState) (fs : FS) (_new : Bool)
    (he : st.encryption = true) (hok : (save P st fs _new).err = none) :
    ∃ (pre : List Ev) (c : Cipher) (m : String),
      (pre = [] ∨ pre = [Ev.regen]) ∧
      (save P st fs _new).tr = pre ++
        [ Ev.encryptE
        , Ev.writeData (String.append "wb" (if _new then "+" else "")) (Entry.fileCipher c)
        , Ev.writeMeta (String.append "w" (if _new then "+" else "")) (Entry.fileMeta m) ] ∧
      (pre = [Ev.regen] ↔ (_new = true ∨ keyChangedCheck P st = Except.ok true)) := by
  by_cases hdb : JVal.isNull st._db = true
  · exfalso
    unfold save at hok
    rw [if_pos hdb] at hok
    simp at hok
  · have hdbf : JVal.isNull st._db = false := by
      cases h : JVal.isNull st._db
      · rfl
      · exact absurd h hdb
    cases hnew : _new with
    | true =>
      subst hnew
      refine ⟨[Ev.regen],
        P.encrypt (P.makeNew st.string_key st.encryption_text_encoding) st._db,
        P.dumpMeta (P.makeNew st.string_key st.encryption_text_encoding),
        Or.inr rfl, ?_, ?_⟩
      · unfold save
        simp [hdbf, he]
      · simp
    | false =>
      subst hnew
      cases hkc : keyChangedCheck P st with
      | error e =>
        exfalso
        unfold save at hok
        simp [hdbf, he, hkc] at hok
      | ok changed =>
        cases changed with
        | true =>
          refine ⟨[Ev.regen],
            P.encrypt (P.makeNew st.string_key st.encryption_text_encoding) st._db,
            P.dumpMeta (P.makeNew st.string_key st.encryption_text_encoding),
            Or.inr rfl, ?_, ?_⟩
          · unfold save
            simp [hdbf, he, hkc]
          · simp [hkc]
        | false =>
          cases hcd : st.crypto_data with
          | none =>
            exfalso
            unfold save at hok
            simp [hdbf, he, hkc, hcd] at hok
          | some cd =>
            refine ⟨[], P.encrypt cd st._db, P.dumpMeta cd, Or.inl rfl, ?_, ?_⟩
            · unfold save
              simp [hdbf, he, hkc, hcd]
            · constructor
              · intro h
                simp at h
              · intro h
                rcases h with h | h
                · exact absurd h (by simp)
                · simp [hkc] at h

/-- C3, witnessed at a concrete successful encrypted save. -/
theorem c3_save_ordering_witness :
    (save specProvider loadedEncState fsEmpty false).err = none ∧
    ∃ (pre : List Ev) (c : Cipher) (m : String),
      (pre = [] ∨ pre = [Ev.regen]) ∧
      (save specProvider loadedEncState fsEmpty false).tr = pre ++
        [ Ev.encryptE
        , Ev.writeData (String.append "wb" (if false then "+" else "")) (Entry.fileCipher c)
        , Ev.writeMeta (String.append "w" (if false then "+" else "")) (Entry.fileMeta m) ] ∧
      (pre = [Ev.regen] ↔
        (false = true ∨ keyChangedCheck specProvider loadedEncState = Except.ok true)) :=
  ⟨rfl, c3_save_ordering specProvider loadedEncState fsEmpty false rfl rfl⟩

/-- C8: every proxied mapping operation on a store holding a mapping
behaves exactly as the same operation on the standalone dict: the
returned value or raised error and the mutation of the mapping match the
dict semantics, the file system is untouched and the trace is empty (no
disk I/O). No hypothesis on `loaded` appears anywhere — the proxies never
read the flag — and forwarding on a store whose mapping is None fails
naturally with an AttributeError. -/
theorem c8_mapping_delegation (st : DBState) (fs : FS) (d : PyDict)
    (hdb : st._db = JVal.obj d) (k : String) (v dflt : JVal) (ks : List String)
    (other : PyDict) :
    store_contains st fs k =
      { st := st, fs := fs, tr := [], out := Except.ok (dictContains d k) } ∧
    store_getitem st fs k = { st := st, fs := fs, tr := [], out := dictGetItem d k } ∧
    store_setitem st fs k v =
      { st := { st with _db := JVal.obj (dictSetItem d k v) }, fs := fs, tr := []
      , out := Except.ok () } ∧
    (∀ d2, dictDelItem d k = Except.ok d2 →
      store_delitem st fs k =
        { st := { st with _db := JVal.obj d2 }, fs := fs, tr := [], out := Except.ok () }) ∧
    (∀ e, dictDelItem d k = Except.error e →
      store_delitem st fs k = { st := st, fs := fs, tr := [], out := Except.error e }) ∧
    store_clear st fs =
      { st := { st with _db := JVal.obj (dictClear d) }, fs := fs, tr := []
      , out := Except.ok () } ∧
    store_copy st fs = { st := st, fs := fs, tr := [], out := Except.ok (dictCopy d) } ∧
    store_fromkeys st fs ks v =
      { st := st, fs := fs, tr := [], out := Except.ok (dictFromkeys ks v) } ∧
    store_get st fs k dflt =
      { st := st, fs := fs, tr := [], out := Except.ok (dictGet d k dflt) } ∧
    store_items st fs = { st := st, fs := fs, tr := [], out := Except.ok (dictItems d) } ∧
    store_keys st fs = { st := st, fs := fs, tr := [], out := Except.ok (dictKeys d) } ∧
    (∀ v2 d2, dictPop d k = Except.ok (v2, d2) →
      store_pop st fs k =
        { st := { st with _db := JVal.obj d2 }, fs := fs, tr := [], out := Except.ok v2 }) ∧
    (∀ e, dictPop d k = Except.error e →
      store_pop st fs k = { st := st, fs := fs, tr := [], out := Except.error e }) ∧
    (∀ kv d2, dictPopitem d = Except.ok (kv, d2) →
      store_popitem st fs =
        { st := { st with _db := JVal.obj d2 }, fs := fs, tr := [], out := Except.ok kv }) ∧
    (∀ e, dictPopitem d = Except.error e →
      store_popitem st fs = { st := st, fs := fs, tr := [], out := Except.error e }) ∧
    store_setdefault st fs k v =
      { st := { st with _db := JVal.obj (dictSetdefault d k v).2 }, fs := fs, tr := []
      , out := Except.ok (dictSetdefault d k v).1 } ∧
    store_update st fs other =
      { st := { st with _db := JVal.obj (dictUpdate d other) }, fs := fs, tr := []
      , out := Except.ok () } ∧
    store_values st fs = { st := st, fs := fs, tr := [], out := Except.ok (dictValues d) } ∧
    (∀ st2 : DBState, st2._db = JVal.null →
      store_contains st2 fs k =
        { st := st2, fs := fs, tr := [], out := Except.error (PyErr.attributeError "_db") }) := by
  have hst : { st with _db := JVal.obj d } = st := by rw [← hdb]
  refine ⟨?_, ?_, ?_, ?_, ?_, ?_, ?_, ?_, ?_, ?_, ?_, ?_, ?_, ?_, ?_, ?_, ?_, ?_, ?_⟩
  · simp [store_contains, proxyRead, hdb]
  · cases hgi : dictGetItem d k with
    | ok v2 => simp [store_getitem, proxyMut, hdb, hgi, Except.map, hst]
    | error e => simp [store_getitem, proxyMut, hdb, hgi, Except.map]
  · simp [store_setitem, proxyMut, hdb]
  · intro d2 hdel
    simp [store_delitem, proxyMut, hdb, hdel, Except.map]
  · intro e hdel
    simp [store_delitem, proxyMut, hdb, hdel, Except.map]
  · simp [store_clear, proxyMut, hdb]
  · simp [store_copy, proxyRead, hdb]
  · simp [store_fromkeys, proxyRead, hdb]
  · simp [store_get, proxyRead, hdb]
  · simp [store_items, proxyRead, hdb]
  · simp [store_keys, proxyRead, hdb]
  · intro v2 d2 hp
    simp [store_pop, proxyMut, hdb, hp]
  · intro e hp
    simp [store_pop, proxyMut, hdb, hp]
  · intro kv d2 hp
    simp [store_popitem, proxyMut, hdb, hp]
  · intro e hp
    simp [store_popitem, proxyMut, hdb, hp]
  · simp [store_setdefault, proxyMut, hdb]
  · simp [store_update, proxyMut, hdb]
  · simp [store_values, proxyRead, hdb]
  · intro st2 h2
    simp [store_contains, proxyRead, h2]

/-- C8, witnessed at a concrete loaded store: a membership test and an
insertion agree with the standalone dict semantics, without touching
files. -/
theorem c8_mapping_delegation_witness :
    loadedPlainState._db = JVal.obj [("a", JVal.num 1)] ∧
    store_contains loadedPlainState fsEmpty "a" =
      { st := loadedPlainState, fs := fsEmpty, tr := [], out := Except.ok true } ∧
    store_setitem loadedPlainState fsEmpty "b" (JVal.num 2) =
      { st := { loadedPlainState with
          _db := JVal.obj [("a", JVal.num 1), ("b", JVal.num 2)] }
      , fs := fsEmpty, tr := [], out := Except.ok () } := by
  refine ⟨rfl, ?_, ?_⟩
  · have h := (c8_mapping_delegation loadedPlainState fsEmpty [("a", JVal.num 1)] rfl
      "a" JVal.null JVal.null [] []).1
    rw [h]
    rfl
  · have h := (c8_mapping_delegation loadedPlainState fsEmpty [("a", JVal.num 1)] rfl
      "b" (JVal.num 2) JVal.null [] []).2.2.1
    rw [h]
    rfl

/-- C4: loading a store configured with default value an empty mapping at
a nonexistent path with create_if_nonexistent = true succeeds, marks the
store loaded, sets the in-memory mapping to the deep copy of the
configured default (the empty mapping), and creates the data file on disk
— plus the metadata file when encryption is enabled. Moreover (object
graph model) the deep copy of the default object reads back as the same
value while sharing no mutable substructure with it: mutating any object
that existed before the copy leaves the copy's value unchanged. -/
theorem c4_creation_default (P : Provider) (st : DBState) (fs : FS)
    (hdef : st.default = JVal.obj [])
    (hmiss : fs st.db_file_name = none)
    (hpaths : st.encryption = true → st.db_file_name ≠ st.crypto_data_file_name) :
    ((load P st fs true).err = none ∧
     (load P st fs true).st.loaded = true ∧
     (load P st fs true).st._db = deepcopyVal st.default ∧
     (load P st fs true).st._db = JVal.obj [] ∧
     (∃ e, (load P st fs true).fs st.db_file_name = some e ∧ Entry.isFile e = true) ∧
     (st.encryption = true →
       ∃ e2, (load P st fs true).fs st.crypto_data_file_name = some e2)) ∧
    (∀ (h : Heap) (a a0 : Nat) (n : Node), a < h.length → a0 < h.length →
      heapRead (heapDeepcopy h a).1 (heapDeepcopy h a).2 = heapRead h a ∧
      heapRead (heapMutate (heapDeepcopy h a).1 a0 n) (heapDeepcopy h a).2 =
        heapRead (heapDeepcopy h a).1 (heapDeepcopy h a).2) := by
  constructor
  · have hdc : deepcopyVal st.default = JVal.obj [] := by rw [hdef]; rfl
    by_cases he : st.encryption = true
    · have hne := hpaths he
      have hload : load P st fs true =
          { st := { st with
              _db := JVal.obj [],
              loaded := true,
              crypto_data := some (P.makeNew st.string_key st.encryption_text_encoding) }
          , fs := fsSet (fsSet fs st.db_file_name
              (Entry.fileCipher (P.encrypt
                (P.makeNew st.string_key st.encryption_text_encoding) (JVal.obj []))))
              st.crypto_data_file_name
              (Entry.fileMeta (P.dumpMeta (P.makeNew st.string_key st.encryption_text_encoding)))
          , tr := [ Ev.regen, Ev.encryptE
            , Ev.writeData (String.append "wb" "+") (Entry.fileCipher (P.encrypt
                (P.makeNew st.string_key st.encryption_text_encoding) (JVal.obj [])))
            , Ev.writeMeta (String.append "w" "+") (Entry.fileMeta (P.dumpMeta
                (P.makeNew st.string_key st.encryption_text_encoding))) ]
          , err := none } := by
        unfold load save
        rw [hmiss]
        simp [hdc, he, JVal.isNull]
      rw [hload]
      refine ⟨rfl, rfl, by simp [hdc], rfl, ?_, ?_⟩
      · refine ⟨Entry.fileCipher (P.encrypt
          (P.makeNew st.string_key st.encryption_text_encoding) (JVal.obj [])), ?_, rfl⟩
        show fsSet (fsSet fs st.db_file_name
            (Entry.fileCipher (P.encrypt
              (P.makeNew st.string_key st.encryption_text_encoding) (JVal.obj []))))
            st.crypto_data_file_name
            (Entry.fileMeta (P.dumpMeta (P.makeNew st.string_key st.encryption_text_encoding)))
            st.db_file_name = _
        rw [fsSet_other _ _ _ _ hne, fsSet_same]
      · intro _
        refine ⟨Entry.fileMeta (P.dumpMeta
          (P.makeNew st.string_key st.encryption_text_encoding)), ?_⟩
        show fsSet (fsSet fs st.db_file_name
            (Entry.fileCipher (P.encrypt
              (P.makeNew st.string_key st.encryption_text_encoding) (JVal.obj []))))
            st.crypto_data_file_name
            (Entry.fileMeta (P.dumpMeta (P.makeNew st.string_key st.encryption_text_encoding)))
            st.crypto_data_file_name = _
        rw [fsSet_same]
    · have hef : st.encryption = false := by
        cases h : st.encryption
        · rfl
        · exact absurd h he
      have hload : load P st fs true =
          { st := { st with _db := JVal.obj [], loaded := true }
          , fs := fsSet fs st.db_file_name (Entry.fileText (JVal.obj []))
          , tr := [Ev.writeData (String.append "w" "+") (Entry.fileText (JVal.obj []))]
          , err := none } := by
        unfold load save
        rw [hmiss]
        simp [hdc, hef, JVal.isNull]
      rw [hload]
      refine ⟨rfl, rfl, by simp [hdc], rfl, ?_, ?_⟩
      · refine ⟨Entry.fileText (JVal.obj []), ?_, rfl⟩
        show fsSet fs st.db_file_name (Entry.fileText (JVal.obj [])) st.db_file_name = _
        rw [fsSet_same]
      · intro hcontr
        exact absurd hcontr (by rw [hef]; simp)
  · intro h a a0 n ha ha0
    exact ⟨heapDeepcopy_reads h a ha, heapDeepcopy_mutation h a ha a0 ha0 n⟩

/-- C4, witnessed at a concrete encrypted store over the empty file
system, plus a one-node object graph holding the empty dict. -/
theorem c4_creation_default_witness :
    (load specProvider (initState "db.json" (JVal.obj []) true "db.cryptodata" "S" "utf-8")
      fsEmpty true).err = none ∧
    (load specProvider (initState "db.json" (JVal.obj []) true "db.cryptodata" "S" "utf-8")
      fsEmpty true).st.loaded = true ∧
    (load specProvider (initState "db.json" (JVal.obj []) true "db.cryptodata" "S" "utf-8")
      fsEmpty true).st._db = JVal.obj [] ∧
    (∃ e, (load specProvider (initState "db.json" (JVal.obj []) true "db.cryptodata" "S" "utf-8")
      fsEmpty true).fs "db.json" = some e ∧ Entry.isFile e = true) ∧
    (∃ e2, (load specProvider (initState "db.json" (JVal.obj []) true "db.cryptodata" "S" "utf-8")
      fsEmpty true).fs "db.cryptodata" = some e2) ∧
    heapRead (heapDeepcopy [Node.objN []] 0).1 (heapDeepcopy [Node.objN []] 0).2 =
      heapRead [Node.objN []] 0 ∧
    heapRead (heapMutate (heapDeepcopy [Node.objN []] 0).1 0 (Node.leafN (JVal.num 7)))
        (heapDeepcopy [Node.objN []] 0).2 =
      heapRead (heapDeepcopy [Node.objN []] 0).1 (heapDeepcopy [Node.objN []] 0).2 := by
  have h := c4_creation_default specProvider
    (initState "db.json" (JVal.obj []) true "db.cryptodata" "S" "utf-8") fsEmpty
    rfl rfl (fun _ => by decide)
  have hh := h.2 [Node.objN []] 0 0 (Node.leafN (JVal.num 7)) (by decide) (by decide)
  exact ⟨h.1.1, h.1.2.1, h.1.2.2.2.1, h.1.2.2.2.2.1, h.1.2.2.2.2.2 rfl, hh.1, hh.2⟩

/-- Loading an encrypted store whose metadata and ciphertext were produced
under the store's own secret succeeds: the metadata file is read back, the
data file decrypts, the mapping lands in `_db`, the immediate re-save
rewrites both files with the same contents, and `loaded` is set. -/
theorem load_enc_ok (st : DBState) (fs : FS) (S : String) (d : PyDict)
    (he : st.encryption = true)
    (hkey : st.string_key = S)
    (hdbf : fs st.db_file_name =
      some (Entry.fileCipher { encKey := S, payload := JVal.obj d }))
    (hmeta : fs st.crypto_data_file_name = some (Entry.fileMeta S)) :
    load specProvider st fs true =
      { st := { st with
          _db := JVal.obj d,
          loaded := true,
          crypto_data := some { keyHash := S, encSecret := S } }
      , fs := fsSet (fsSet fs st.db_file_name
          (Entry.fileCipher { encKey := S, payload := JVal.obj d }))
          st.crypto_data_file_name (Entry.fileMeta S)
      , tr := [ Ev.encryptE
        , Ev.writeData (String.append "wb" "")
            (Entry.fileCipher { encKey := S, payload := JVal.obj d })
        , Ev.writeMeta (String.append "w" "") (Entry.fileMeta S) ]
      , err := none } := by
  unfold load save keyChangedCheck
  rw [hdbf, hmeta]
  simp [Entry.isFile, he, metaPayloadE, specProvider, cipherContent, JVal.isNull, hkey]

/-- Loading an encrypted store whose files were produced under a secret
other than the store's fails during decryption with DecryptError, leaving
`loaded` and `_db` untouched (only the just-read metadata attribute is
set). -/
theorem load_enc_wrong (st : DBState) (fs : FS) (S T : String) (d : PyDict)
    (he : st.encryption = true)
    (hkey : st.string_key = T)
    (hTS : S ≠ T)
    (hdbf : fs st.db_file_name =
      some (Entry.fileCipher { encKey := S, payload := JVal.obj d }))
    (hmeta : fs st.crypto_data_file_name = some (Entry.fileMeta S)) :
    load specProvider st fs true =
      { st := { st with crypto_data := some { keyHash := S, encSecret := T } }
      , fs := fs, tr := [], err := some PyErr.decryptError } := by
  unfold load
  rw [hdbf, hmeta]
  simp [Entry.isFile, he, metaPayloadE, specProvider, cipherContent, hkey, hTS]

/-- Saving after the caller rebound the secret attribute: the rotation
check fails with InvalidKey internally, the metadata is regenerated from
the new secret, and both files are rewritten under it. -/
theorem save_rotate (st : DBState) (fs : FS) (S T : String) (d : PyDict)
    (he : st.encryption = true)
    (hdbv : st._db = JVal.obj d)
    (hcd : st.crypto_data = some { keyHash := S, encSecret := S })
    (hkey : st.string_key = T)
    (hST : S ≠ T) :
    save specProvider st fs false =
      { st := { st with crypto_data := some { keyHash := T, encSecret := T } }
      , fs := fsSet (fsSet fs st.db_file_name
          (Entry.fileCipher { encKey := T, payload := JVal.obj d }))
          st.crypto_data_file_name (Entry.fileMeta T)
      , tr := [ Ev.regen, Ev.encryptE
        , Ev.writeData (String.append "wb" "")
            (Entry.fileCipher { encKey := T, payload := JVal.obj d })
        , Ev.writeMeta (String.append "w" "") (Entry.fileMeta T) ]
      , err := none } := by
  unfold save keyChangedCheck
  rw [hcd]
  simp [JVal.isNull, hdbv, he, specProvider, hkey, hST]

/-- C2: for every mapping and distinct secrets S and S2, after loading an
encrypted store with S, reassigning the secret attribute to S2 without
reloading, and saving, a fresh store configured with S2 loads
successfully and yields the saved mapping, while a fresh store configured
with the old S fails to load (DecryptError, not loaded). -/
theorem c2_key_rotation (S S2 : String) (hS : S ≠ S2) (d : PyDict) :
    (load specProvider (rotStoreState S) (rotInitialFS S d) true).err = none ∧
    (rotAfterSave S S2 d).err = none ∧
    (load specProvider (rotStoreState S2) (rotAfterSave S S2 d).fs true).err = none ∧
    (load specProvider (rotStoreState S2) (rotAfterSave S S2 d).fs true).st._db =
      JVal.obj d ∧
    (load specProvider (rotStoreState S2) (rotAfterSave S S2 d).fs true).st.loaded = true ∧
    (load specProvider (rotStoreState S) (rotAfterSave S S2 d).fs true).err =
      some PyErr.decryptError ∧
    (load specProvider (rotStoreState S) (rotAfterSave S S2 d).fs true).st.loaded = false := by
  have hdm : ("db.json" : String) ≠ "db.cryptodata" := by decide
  have hdbf0 : rotInitialFS S d "db.json" =
      some (Entry.fileCipher { encKey := S, payload := JVal.obj d }) := by
    unfold rotInitialFS
    rw [fsSet_other _ _ _ _ hdm, fsSet_same]
  have hmeta0 : rotInitialFS S d "db.cryptodata" = some (Entry.fileMeta S) := by
    unfold rotInitialFS
    rw [fsSet_same]
  have h1 := load_enc_ok (rotStoreState S) (rotInitialFS S d) S d rfl rfl hdbf0 hmeta0
  have h2 : rotAfterSave S S2 d =
      { st := { rotStoreState S with
          _db := JVal.obj d,
          loaded := true,
          crypto_data := some { keyHash := S2, encSecret := S2 },
          string_key := S2 }
      , fs := fsSet (fsSet
          (fsSet (fsSet (rotInitialFS S d) "db.json"
            (Entry.fileCipher { encKey := S, payload := JVal.obj d }))
            "db.cryptodata" (Entry.fileMeta S))
          "db.json" (Entry.fileCipher { encKey := S2, payload := JVal.obj d }))
          "db.cryptodata" (Entry.fileMeta S2)
      , tr := [ Ev.regen, Ev.encryptE
        , Ev.writeData (String.append "wb" "")
            (Entry.fileCipher { encKey := S2, payload := JVal.obj d })
        , Ev.writeMeta (String.append "w" "") (Entry.fileMeta S2) ]
      , err := none } := by
    unfold rotAfterSave
    rw [h1]
    exact save_rotate _ _ S S2 d rfl rfl rfl rfl hS
  have hdbf2 : (rotAfterSave S S2 d).fs "db.json" =
      some (Entry.fileCipher { encKey := S2, payload := JVal.obj d }) := by
    rw [h2]
    show fsSet (fsSet
        (fsSet (fsSet (rotInitialFS S d) "db.json"
          (Entry.fileCipher { encKey := S, payload := JVal.obj d }))
          "db.cryptodata" (Entry.fileMeta S))
        "db.json" (Entry.fileCipher { encKey := S2, payload := JVal.obj d }))
        "db.cryptodata" (Entry.fileMeta S2) "db.json" = _
    rw [fsSet_other _ _ _ _ hdm, fsSet_same]
  have hmeta2 : (rotAfterSave S S2 d).fs "db.cryptodata" = some (Entry.fileMeta S2) := by
    rw [h2]
    show fsSet (fsSet
        (fsSet (fsSet (rotInitialFS S d) "db.json"
          (Entry.fileCipher { encKey := S, payload := JVal.obj d }))
          "db.cryptodata" (Entry.fileMeta S))
        "db.json" (Entry.fileCipher { encKey := S2, payload := JVal.obj d }))
        "db.cryptodata" (Entry.fileMeta S2) "db.cryptodata" = _
    rw [fsSet_same]
  have h3 := load_enc_ok (rotStoreState S2) (rotAfterSave S S2 d).fs S2 d rfl rfl hdbf2 hmeta2
  have h4 := load_enc_wrong (rotStoreState S) (rotAfterSave S S2 d).fs S2 S d rfl rfl
    (Ne.symm hS) hdbf2 hmeta2
  exact ⟨by rw [h1], by rw [h2], by rw [h3], by rw [h3], by rw [h3], by rw [h4],
    by rw [h4]; rfl⟩

/-- C2, witnessed at the concrete secrets a and b and the mapping k: 1. -/
theorem c2_key_rotation_witness :
    ("a" : String) ≠ "b" ∧
    (load specProvider (rotStoreState "b")
      (rotAfterSave "a" "b" [("k", JVal.num 1)]).fs true).st._db =
      JVal.obj [("k", JVal.num 1)] ∧
    (load specProvider (rotStoreState "a")
      (rotAfterSave "a" "b" [("k", JVal.num 1)]).fs true).err =
      some PyErr.decryptError :=
  ⟨by decide,
   (c2_key_rotation "a" "b" (by decide) [("k", JVal.num 1)]).2.2.2.1,
   (c2_key_rotation "a" "b" (by decide) [("k", JVal.num 1)]).2.2.2.2.2.1⟩

end HealthBox
